import Mathlib

/-!
Shallow embedding of the cliphunter video-clipping pipeline.

JavaScript numbers are modelled as exact rationals (all constants involved are
small decimal fractions, and every claim under scrutiny is stated over the
field operations +, -, *, /, min, max, abs, which the source uses on finite
values).  Strings are modelled as Lean `String` or, where character counting
matters, as `List Char` (each relevant character is ASCII, where JavaScript
`.length` agrees with the list length).
-/

namespace Cliphunter

/-- Scene record from src/types/clip.ts: a candidate time interval with a
heuristic score, all values in floating-point seconds. -/
structure Scene where
  startTime : ℚ
  endTime : ℚ
  duration : ℚ
  score : ℚ
  deriving DecidableEq, Repr

/-! CLIP_CONFIG from src/config/constants.ts. -/

/-- Minimum clip duration in seconds (CLIP_CONFIG.minDuration). -/
def minDuration : ℚ := 15

/-- Maximum clip duration in seconds (CLIP_CONFIG.maxDuration). -/
def maxDuration : ℚ := 60

/-- Default clip duration in seconds (CLIP_CONFIG.defaultDuration). -/
def defaultDuration : ℚ := 45

/-- Minimum time between clips in seconds (CLIP_CONFIG.minTimeBetweenClips). -/
def minTimeBetweenClips : ℚ := 5

/-- VideoService.scoreScenes: weighted heuristic score per scene, clamped by a
final min with 1.  Mirrors the source: base 0.5, +0.15 for position in the
middle 70%, +0.1 for the middle 40%, +0.25 scaled by closeness of the duration
to 60s (with a max-0 floor), +0.1 for durations of at least 60s. -/
def scoreScenes (scenes : List Scene) (duration : ℚ) : List Scene :=
  scenes.map fun scene =>
    let base : ℚ := 1/2
    let position := scene.startTime / duration
    let s1 := if 15/100 < position ∧ position < 85/100 then base + 15/100 else base
    let s2 := if 3/10 < position ∧ position < 7/10 then s1 + 1/10 else s1
    let idealDuration : ℚ := 60
    let durationDiff := |scene.duration - idealDuration|
    let durationScore := max 0 (1 - durationDiff / idealDuration)
    let s3 := s2 + durationScore * (25/100)
    let s4 := if 60 ≤ scene.duration then s3 + 1/10 else s3
    { scene with score := min s4 1 }

/-- Overlap test from VideoService.selectBestScenes, literally the three
disjuncts of the source (candidate start inside s, candidate end inside s,
candidate covering s). -/
def overlapsJS (scene s : Scene) : Bool :=
  (decide (s.startTime ≤ scene.startTime) && decide (scene.startTime < s.endTime)) ||
  (decide (s.startTime < scene.endTime) && decide (scene.endTime ≤ s.endTime)) ||
  (decide (scene.startTime ≤ s.startTime) && decide (s.endTime ≤ scene.endTime))

/-- Spacing test from VideoService.selectBestScenes: the candidate ends more
than minTimeBetweenClips before s starts, or starts more than
minTimeBetweenClips after s ends. -/
def spacingOk (scene s : Scene) : Bool :=
  decide (scene.endTime + minTimeBetweenClips < s.startTime) ||
  decide (s.endTime + minTimeBetweenClips < scene.startTime)

/-- Rejection test inside the selection loop: the candidate overlaps an
already selected scene or violates the minimum spacing. -/
def tooClose (scene s : Scene) : Bool :=
  overlapsJS scene s || !spacingOk scene s

/-- The for-loop of VideoService.selectBestScenes: walk the score-sorted
candidates, stop once maxClips scenes are kept, skip candidates that are too
close to a kept scene, otherwise push to the end of the selection. -/
def selectLoop (maxClips : ℕ) : List Scene → List Scene → List Scene
  | [], selected => selected
  | scene :: rest, selected =>
    if maxClips ≤ selected.length then selected
    else if selected.any (tooClose scene) then selectLoop maxClips rest selected
    else selectLoop maxClips rest (selected ++ [scene])

/-- Comparator (a, b) => b.score - a.score of the first sort in
selectBestScenes: descending score. -/
def byScoreDesc (a b : Scene) : Prop := b.score ≤ a.score

/-- Comparator (a, b) => a.startTime - b.startTime of the final sort in
selectBestScenes: ascending start time. -/
def byStartAsc (a b : Scene) : Prop := a.startTime ≤ b.startTime

instance : DecidableRel byScoreDesc := fun a b =>
  inferInstanceAs (Decidable (b.score ≤ a.score))

instance : DecidableRel byStartAsc := fun a b =>
  inferInstanceAs (Decidable (a.startTime ≤ b.startTime))

instance : IsTotal Scene byStartAsc := ⟨fun a b => le_total a.startTime b.startTime⟩

instance : IsTrans Scene byStartAsc := ⟨fun _ _ _ h1 h2 => le_trans h1 h2⟩

/-- VideoService.selectBestScenes: sort by descending score, greedily keep up
to maxClips pairwise well-spaced scenes, and re-sort the kept scenes by start
time.  JavaScript Array.prototype.sort is stable, as is insertion sort. -/
def selectBestScenes (scenes : List Scene) (maxClips : ℕ) : List Scene :=
  List.insertionSort byStartAsc
    (selectLoop maxClips (List.insertionSort byScoreDesc scenes) [])

/-- Separation invariant maintained by the selection loop: one scene ends more
than minTimeBetweenClips before the other starts. -/
def Sep (a b : Scene) : Prop :=
  a.endTime + minTimeBetweenClips < b.startTime ∨
  b.endTime + minTimeBetweenClips < a.startTime

/-- VideoService.createFallbackScenes: evenly stepped fixed-duration windows,
each start capped at duration - defaultDuration and each end capped at the
total duration, scored 0.3. -/
def createFallbackScenes (duration : ℚ) (count : ℕ) : List Scene :=
  let clipDuration : ℚ := defaultDuration
  let step : ℚ := max (duration / ((count : ℚ) + 1)) clipDuration
  (List.range count).map fun i =>
    let startTime := min (((i : ℚ) + 1) * step) (duration - clipDuration)
    let endTime := min (startTime + clipDuration) duration
    { startTime := startTime, endTime := endTime, duration := endTime - startTime,
      score := 3/10 }

/-- Outcome of the try/catch in VideoService.detectScenes: the body (the
external ffmpeg invocation plus timestamp parsing, abstracted here as an
Except value) either yields scenes, or its error is wrapped and rethrown as
"Scene detection failed: ...". -/
def detectScenesWrap (raw : Except String (List Scene)) : Except String (List Scene) :=
  match raw with
  | Except.ok scenes => Except.ok scenes
  | Except.error msg => Except.error ("Scene detection failed: " ++ msg)

/-- VideoService.analyzeVideo: await detectScenes (no try/catch, so a detector
error propagates), substitute fallback scenes when fewer than maxClips scenes
were detected, then score and select. -/
def analyzeVideo (duration : ℚ) (maxClips : ℕ)
    (raw : Except String (List Scene)) : Except String (List Scene) :=
  match detectScenesWrap raw with
  | Except.error msg => Except.error msg
  | Except.ok s0 =>
    let scenes := if s0.length < maxClips then createFallbackScenes duration maxClips else s0
    Except.ok (selectBestScenes (scoreScenes scenes duration) maxClips)

/-! ClipService title splitting (src clip.service).  JavaScript strings are
modelled as character lists; every character involved is ASCII, where the
JavaScript UTF-16 .length equals the list length. -/

/-- Accumulator recursion behind splitOnSpace. -/
def splitOnSpaceAux : List Char → List Char → List (List Char)
  | [], cur => [cur.reverse]
  | c :: rest, cur =>
    if c = ' ' then cur.reverse :: splitOnSpaceAux rest []
    else splitOnSpaceAux rest (c :: cur)

/-- JavaScript title.split(" "): cut at every single space, keeping empty
segments for consecutive spaces, and producing one (possibly empty) segment
even for the empty string. -/
def splitOnSpace (s : List Char) : List (List Char) := splitOnSpaceAux s []

/-- The for-of loop plus final push of ClipService.splitTitleIntoLines: pack
words greedily into the current line while the candidate line stays within
maxCharsPerLine; when it would not fit, flush the (non-empty) current line and
start over from the word.  The empty string is falsy in JavaScript, which the
emptiness tests mirror. -/
def packWords (maxCharsPerLine : ℕ) : List (List Char) → List Char → List (List Char)
  | [], currentLine => if currentLine = [] then [] else [currentLine]
  | w :: rest, currentLine =>
    let testLine := if currentLine = [] then w else currentLine ++ [' '] ++ w
    if testLine.length ≤ maxCharsPerLine then packWords maxCharsPerLine rest testLine
    else (if currentLine = [] then [] else [currentLine]) ++ packWords maxCharsPerLine rest w

/-- ClipService.splitTitleIntoLines: short titles are a single line; otherwise
split on spaces, pack greedily, and keep at most the first 3 lines. -/
def splitTitleIntoLines (title : List Char) (maxCharsPerLine : ℕ) : List (List Char) :=
  if title.length ≤ maxCharsPerLine then [title]
  else (packWords maxCharsPerLine (splitOnSpace title) []).take 3

/-- Joining produced lines with single spaces, for the round-trip property. -/
def joinLines (lines : List (List Char)) : List Char := List.intercalate [' '] lines

/-- The concrete title of the C6 claim. -/
def c6Title : List Char := "This Is A Very Long Title For A Short Video".toList

/-! Job store (JobService over the jobs table), work queue (SimpleQueue) and
the orchestrator-facing parts of ClipService/VideoProcessor. -/

/-- Job status enum (JOB_STATUS in src/config/constants.ts). -/
inductive JobStatus where
  | queued
  | processing
  | completed
  | failed
  | cancelled
  deriving DecidableEq, Repr

/-- Progress record stored (JSON-serialized) with each job; step is one of the
PROCESSING_STEPS strings. -/
structure JobProgress where
  step : String
  percentage : ℚ
  message : String
  deriving DecidableEq, Repr

/-- Clip record inside a job result (video-processor.ts result building). -/
structure ClipInfo where
  id : String
  startTime : ℚ
  endTime : ℚ
  duration : ℚ
  score : ℚ
  thumbnailUrl : String
  videoUrl : String
  title : Option String
  deriving DecidableEq, Repr

/-- Result attached to a completed job. -/
structure JobResult where
  videoTitle : String
  duration : ℚ
  clips : List ClipInfo
  deriving DecidableEq, Repr

/-- Error attached to a failed job; the source's extra details field carries
the raw exception value and is not modelled. -/
structure JobError where
  message : String
  code : String
  deriving DecidableEq, Repr

/-- Job options after createJob applied its defaults. -/
structure JobOptions where
  clipDuration : Option ℚ
  maxClips : ℕ
  includeSubtitles : Bool
  deriving DecidableEq, Repr

/-- A row of the jobs table, deserialized (JobService.recordToJob). -/
structure Job where
  id : String
  videoUrl : String
  status : JobStatus
  progress : JobProgress
  result : Option JobResult
  error : Option JobError
  options : JobOptions
  createdAt : ℕ
  updatedAt : ℕ
  deriving DecidableEq, Repr

/-- SELECT * FROM jobs WHERE id = ? (JobService.getJob); id is the primary
key, so the first match is the row. -/
def getJob : List Job → String → Option Job
  | [], _ => none
  | j :: rest, jobId => if j.id = jobId then some j else getJob rest jobId

/-- UPDATE jobs SET ... WHERE id = ?: apply f to every row whose id matches. -/
def updateWhere (st : List Job) (jobId : String) (f : Job → Job) : List Job :=
  st.map fun j => if j.id = jobId then f j else j

/-- JobService.createJob: INSERT a fresh queued job; null result and error;
JavaScript options.maxClips || 5 turns both undefined and 0 into 5, and
includeSubtitles ?? true defaults only undefined. -/
def createJob (st : List Job) (jobId videoUrl : String) (maxClips : Option ℕ)
    (clipDuration : Option ℚ) (includeSubtitles : Option Bool) (now : ℕ) : List Job :=
  st ++ [{ id := jobId, videoUrl := videoUrl, status := JobStatus.queued,
           progress := { step := "downloading", percentage := 0, message := "Job queued" },
           result := none, error := none,
           options := { clipDuration := clipDuration,
                        maxClips := match maxClips with
                          | none => 5
                          | some n => if n = 0 then 5 else n,
                        includeSubtitles := includeSubtitles.getD true },
           createdAt := now, updatedAt := now }]

/-- JobService.updateJobStatus: set the status, optionally the progress, and
bump updatedAt. -/
def updateJobStatus (st : List Job) (jobId : String) (status : JobStatus)
    (progress : Option JobProgress) (now : ℕ) : List Job :=
  updateWhere st jobId fun j =>
    { j with status := status, progress := progress.getD j.progress, updatedAt := now }

/-- JobService.updateJobProgress: set the progress and bump updatedAt. -/
def updateJobProgress (st : List Job) (jobId : String) (progress : JobProgress)
    (now : ℕ) : List Job :=
  updateWhere st jobId fun j => { j with progress := progress, updatedAt := now }

/-- Terminal progress written by completeJob. -/
def doneProgress : JobProgress :=
  { step := "done", percentage := 100, message := "Clips generated successfully" }

/-- JobService.completeJob: status completed, attach the result, terminal
progress, bump updatedAt.  The error column is not touched. -/
def completeJob (st : List Job) (jobId : String) (result : JobResult) (now : ℕ) : List Job :=
  updateWhere st jobId fun j =>
    { j with status := JobStatus.completed, result := some result,
             progress := doneProgress, updatedAt := now }

/-- JobService.failJob: status failed, attach the error, error progress, bump
updatedAt.  The result column is not touched. -/
def failJob (st : List Job) (jobId : String) (error : JobError) (now : ℕ) : List Job :=
  updateWhere st jobId fun j =>
    { j with status := JobStatus.failed, error := some error,
             progress := { step := "error", percentage := 0, message := error.message },
             updatedAt := now }

/-- JobService.cancelJob: load the job; missing or terminal
(completed/failed) jobs are left untouched with a false return; otherwise the
status flips to cancelled and the call returns true. -/
def cancelJob (st : List Job) (jobId : String) (now : ℕ) : List Job × Bool :=
  match getJob st jobId with
  | none => (st, false)
  | some j =>
    if j.status = JobStatus.completed ∨ j.status = JobStatus.failed then (st, false)
    else (updateWhere st jobId fun x => { x with status := JobStatus.cancelled, updatedAt := now },
          true)

/-- SELECT * FROM jobs WHERE status = queued ORDER BY created_at ASC LIMIT 1
(JobService.getNextQueuedJob): the earliest-created queued job. -/
def getNextQueuedJob (st : List Job) : Option Job :=
  (st.filter fun j => j.status == JobStatus.queued).foldl
    (fun acc j =>
      match acc with
      | none => some j
      | some b => if j.createdAt < b.createdAt then some j else some b)
    none

/-- Modelled from the spec: JobService.updateClipTitle is invoked by the clip
regeneration route, but its implementation is absent from the provided
sources (only the call site exists).  Per the spec it "locates the clip
inside the job's persisted result by id and replaces its title field in
place, leaving every other field and the clip ordering untouched"; updatedAt
is bumped as on every store mutation. -/
def updateClipTitle (st : List Job) (jobId clipId newTitle : String) (now : ℕ) : List Job :=
  updateWhere st jobId fun j =>
    { j with
      result := j.result.map fun r =>
        { r with clips := r.clips.map fun c =>
            if c.id = clipId then { c with title := some newTitle } else c },
      updatedAt := now }

/-- SimpleQueue.dequeue: a no-op returning nothing while the busy flag
(isProcessing) is set; when idle, ask the store for the next queued job and,
if one exists, flip to busy and return it. -/
def dequeue (isProcessing : Bool) (st : List Job) : Option Job × Bool :=
  if isProcessing then (none, isProcessing)
  else
    match getNextQueuedJob st with
    | some j => (some j, true)
    | none => (none, isProcessing)

/-- SimpleQueue.complete: clears the busy flag unconditionally (the job id is
only logged). -/
def queueComplete (_isProcessing : Bool) (_jobId : String) : Bool := false

/-- SimpleQueue.fail: clears the busy flag unconditionally (the job id is
only logged). -/
def queueFail (_isProcessing : Bool) (_jobId : String) : Bool := false

/-- Output record of ClipService.generateClip. -/
structure GeneratedClip where
  id : String
  videoPath : String
  thumbnailPath : String
  startTime : ℚ
  endTime : ℚ
  duration : ℚ
  score : ℚ
  title : Option String
  deriving DecidableEq, Repr

/-- The for-loop of ClipService.generateClips with each iteration's render
outcome supplied as an Except value (the external transcode abstracted): a
successful render is pushed, a failed one is caught, logged and skipped, and
the loop always continues with the remaining scenes. -/
def generateClips : List (Except String GeneratedClip) → List GeneratedClip
  | [] => []
  | Except.ok clip :: rest => clip :: generateClips rest
  | Except.error _ :: rest => generateClips rest

/-- Result construction of VideoProcessor.processNextJob (step 5): map each
generated clip to its ClipInfo with URL paths derived from the job id. -/
def workerBuildResult (jobId : String) (videoTitle : String) (duration : ℚ)
    (clips : List GeneratedClip) : JobResult :=
  { videoTitle := videoTitle, duration := duration,
    clips := clips.map fun clip =>
      { id := clip.id, startTime := clip.startTime, endTime := clip.endTime,
        duration := clip.duration, score := clip.score,
        thumbnailUrl := "/outputs/" ++ jobId ++ "/thumbnails/" ++ clip.id ++ ".jpg",
        videoUrl := "/outputs/" ++ jobId ++ "/clips/" ++ clip.id ++ ".mp4",
        title := clip.title } }

/-- Boolean side condition for the reachability relation below: the addressed
job, if present, is not in a terminal completed/failed state. -/
def notTerminal (st : List Job) (jobId : String) : Bool :=
  match getJob st jobId with
  | none => true
  | some j => !(decide (j.status = JobStatus.completed) || decide (j.status = JobStatus.failed))

/-- Job-store states producible by the system.  Each constructor is one store
operation as the callers use it: createJob from the create route (with a
fresh uuid primary key), updateJobProgress from the worker's progress sink,
updateJobStatus (only ever with status processing, right after a dequeue
returned a still-queued job), completeJob/failJob (the worker finishes the
single in-flight run exactly once — the busy flag blocks any other dequeue,
only this worker writes terminal statuses, and nothing after completeJob in
the try block can throw in-model — so the target is never already terminal),
and cancelJob from the cancel route (its own guard is part of its
definition). -/
inductive Reachable : List Job → Prop
  | init : Reachable []
  | create (st : List Job) (jobId videoUrl : String) (maxClips : Option ℕ)
      (clipDuration : Option ℚ) (includeSubtitles : Option Bool) (now : ℕ)
      (h : Reachable st) (hfresh : getJob st jobId = none) :
      Reachable (createJob st jobId videoUrl maxClips clipDuration includeSubtitles now)
  | progress (st : List Job) (jobId : String) (p : JobProgress) (now : ℕ)
      (h : Reachable st) : Reachable (updateJobProgress st jobId p now)
  | setProcessing (st : List Job) (jobId : String) (p : Option JobProgress) (now : ℕ)
      (h : Reachable st) (hrun : notTerminal st jobId = true) :
      Reachable (updateJobStatus st jobId JobStatus.processing p now)
  | complete (st : List Job) (jobId : String) (res : JobResult) (now : ℕ)
      (h : Reachable st) (hrun : notTerminal st jobId = true) :
      Reachable (completeJob st jobId res now)
  | fail (st : List Job) (jobId : String) (err : JobError) (now : ℕ)
      (h : Reachable st) (hrun : notTerminal st jobId = true) :
      Reachable (failJob st jobId err now)
  | cancel (st : List Job) (jobId : String) (now : ℕ)
      (h : Reachable st) : Reachable (cancelJob st jobId now).1

/-- Per-job strengthened invariant: a result is only ever attached to a
completed job and an error only to a failed one. -/
def StatusInv (j : Job) : Prop :=
  (j.result.isSome = true → j.status = JobStatus.completed) ∧
  (j.error.isSome = true → j.status = JobStatus.failed)

/-- Primary-key uniqueness of job ids in the store. -/
def UniqueIds (st : List Job) : Prop := List.Pairwise (fun a b => a.id ≠ b.id) st

end Cliphunter

namespace Cliphunter

/-- C10: for every input scene list and every total duration, each score
produced by scoreScenes lies in [0, 1]; the weighted components may sum past 1
but the returned score is clamped by the final min and never falls below 0. -/
theorem scoreScenes_score_in_unit_interval (scenes : List Scene) (duration : ℚ)
    (s : Scene) (hs : s ∈ scoreScenes scenes duration) :
    0 ≤ s.score ∧ s.score ≤ 1 := by
  rcases List.mem_map.mp hs with ⟨t, _, rfl⟩
  dsimp only
  refine ⟨le_min ?_ (by norm_num), min_le_right _ _⟩
  have h0 : (0:ℚ) ≤ max 0 (1 - |t.duration - 60| / 60) := le_max_left _ _
  have h1 : (0:ℚ) ≤ max 0 (1 - |t.duration - 60| / 60) * (25/100) :=
    mul_nonneg h0 (by norm_num)
  split_ifs <;> linarith

/-- Concrete evaluation of scoreScenes on a one-scene list, used to discharge
the membership hypothesis of the C10 witness. -/
lemma scoreScenes_single_eval :
    scoreScenes [⟨0, 10, 10, 1/2⟩] 100 = [⟨0, 10, 10, 13/24⟩] := by
  simp only [scoreScenes, List.map_cons, List.map_nil]
  norm_num [Scene.mk.injEq, min_def, max_def]

theorem scoreScenes_score_in_unit_interval_witness :
    (⟨0, 10, 10, 13/24⟩ : Scene) ∈ scoreScenes [⟨0, 10, 10, 1/2⟩] 100 ∧
      (0 ≤ (⟨0, 10, 10, 13/24⟩ : Scene).score ∧ (⟨0, 10, 10, 13/24⟩ : Scene).score ≤ 1) :=
  ⟨by rw [scoreScenes_single_eval]; exact List.mem_singleton.mpr rfl,
    scoreScenes_score_in_unit_interval [⟨0, 10, 10, 1/2⟩] 100 _
      (by rw [scoreScenes_single_eval]; exact List.mem_singleton.mpr rfl)⟩

/-- Concrete evaluation of createFallbackScenes at duration 120 and count 3:
the step is max (120/4) 45 = 45 and the start caps at 120 - 45 = 75, so the
second and third windows coincide. -/
lemma createFallbackScenes_120_3_eval :
    createFallbackScenes 120 3 =
      [⟨45, 90, 45, 3/10⟩, ⟨75, 120, 45, 3/10⟩, ⟨75, 120, 45, 3/10⟩] := by
  simp only [createFallbackScenes, defaultDuration,
    show List.range 3 = [0, 1, 2] from rfl, List.map_cons, List.map_nil]
  norm_num [Scene.mk.injEq, min_def, max_def]

/-- C5 counterexample: createFallbackScenes 120 3 returns the scenes
(45, 90), (75, 120), (75, 120); the first two overlap (75 < 90 and 45 < 120)
and the last two coincide, so the returned intervals are neither monotonically
increasing nor non-overlapping. -/
theorem createFallbackScenes_120_3_overlaps :
    (createFallbackScenes 120 3)[0]? = some ⟨45, 90, 45, 3/10⟩ ∧
    (createFallbackScenes 120 3)[1]? = some ⟨75, 120, 45, 3/10⟩ ∧
    (createFallbackScenes 120 3)[2]? = some ⟨75, 120, 45, 3/10⟩ ∧
    ((75 : ℚ) < 90 ∧ (45 : ℚ) < 120) := by
  rw [createFallbackScenes_120_3_eval]
  exact ⟨rfl, rfl, rfl, by norm_num, by norm_num⟩

/-- C5 amended: createFallbackScenes 120 3 returns exactly 3 scenes, each with
the configured default clip duration 45, each a well-formed interval contained
in [0, 120], with non-decreasing start times; the intervals may however
overlap (and here the last two coincide), so they are not monotonically
increasing, non-overlapping intervals. -/
theorem createFallbackScenes_120_3_spec :
    (createFallbackScenes 120 3).length = 3 ∧
    List.Forall
      (fun s => s.duration = defaultDuration ∧ 0 ≤ s.startTime ∧
        s.endTime ≤ 120 ∧ s.startTime ≤ s.endTime)
      (createFallbackScenes 120 3) ∧
    List.Pairwise (fun a b => a.startTime ≤ b.startTime) (createFallbackScenes 120 3) := by
  rw [createFallbackScenes_120_3_eval]
  refine ⟨rfl, ?_, ?_⟩
  · simp only [List.Forall, defaultDuration]
    norm_num
  · norm_num [List.pairwise_cons]

/-- Candidates accepted by the selection loop satisfy the spacing test against
every already selected scene, hence the separation property. -/
lemma sep_of_not_tooClose {scene s : Scene} (h : tooClose scene s = false) :
    Sep scene s := by
  have h2 : spacingOk scene s = true := by
    rcases Bool.or_eq_false_iff.mp h with ⟨_, hs⟩
    cases hx : spacingOk scene s
    · rw [hx] at hs; simp at hs
    · rfl
  rcases Bool.or_eq_true_iff.mp h2 with hl | hr
  · exact Or.inl (of_decide_eq_true hl)
  · exact Or.inr (of_decide_eq_true hr)

/-- The selection loop preserves pairwise separation of the selected list. -/
lemma selectLoop_pairwise (maxClips : ℕ) (l : List Scene) :
    ∀ selected, List.Pairwise Sep selected →
      List.Pairwise Sep (selectLoop maxClips l selected) := by
  induction l with
  | nil => exact fun _ h => h
  | cons scene rest ih =>
    intro selected h
    unfold selectLoop
    split_ifs with h1 h2
    · exact h
    · exact ih _ h
    · refine ih _ ?_
      rw [List.pairwise_append]
      refine ⟨h, List.pairwise_singleton _ _, ?_⟩
      intro a ha b hb
      rw [List.mem_singleton] at hb
      subst hb
      have hfa : tooClose b a = false := by
        rcases hx : tooClose b a with _ | _
        · rfl
        · exact absurd (List.any_eq_true.mpr ⟨a, ha, hx⟩) h2
      exact Or.symm (sep_of_not_tooClose hfa)

/-- The selection loop never grows the selected list past maxClips. -/
lemma selectLoop_length (maxClips : ℕ) (l : List Scene) :
    ∀ selected, selected.length ≤ maxClips →
      (selectLoop maxClips l selected).length ≤ maxClips := by
  induction l with
  | nil => exact fun _ h => h
  | cons scene rest ih =>
    intro selected h
    unfold selectLoop
    split_ifs with h1 h2
    · exact h
    · exact ih _ h
    · refine ih _ ?_
      rw [List.length_append, List.length_singleton]
      exact Nat.lt_of_not_le h1

/-- C2: for every scene list and every maxClips, selectBestScenes returns at
most maxClips scenes, sorted by startTime ascending, pairwise separated by at
least the configured minTimeBetweenClips, and with no two scenes overlapping. -/
theorem selectBestScenes_spec (scenes : List Scene) (maxClips : ℕ) :
    (selectBestScenes scenes maxClips).length ≤ maxClips ∧
    List.Sorted byStartAsc (selectBestScenes scenes maxClips) ∧
    List.Pairwise
      (fun a b => a.endTime + minTimeBetweenClips ≤ b.startTime ∨
        b.endTime + minTimeBetweenClips ≤ a.startTime)
      (selectBestScenes scenes maxClips) ∧
    List.Pairwise (fun a b => ¬(a.startTime < b.endTime ∧ b.startTime < a.endTime))
      (selectBestScenes scenes maxClips) := by
  unfold selectBestScenes
  have hperm :
      List.Perm
        (List.insertionSort byStartAsc
          (selectLoop maxClips (List.insertionSort byScoreDesc scenes) []))
        (selectLoop maxClips (List.insertionSort byScoreDesc scenes) []) :=
    List.perm_insertionSort _ _
  have hpw0 : List.Pairwise Sep (selectLoop maxClips (List.insertionSort byScoreDesc scenes) []) :=
    selectLoop_pairwise _ _ _ List.Pairwise.nil
  have hpw : List.Pairwise Sep
      (List.insertionSort byStartAsc
        (selectLoop maxClips (List.insertionSort byScoreDesc scenes) [])) :=
    (List.Perm.pairwise_iff (fun hab => Or.symm hab) hperm).mpr hpw0
  refine ⟨?_, ?_, ?_, ?_⟩
  · rw [hperm.length_eq]
    exact selectLoop_length _ _ _ (Nat.zero_le _)
  · exact List.sorted_insertionSort _ _
  · exact hpw.imp fun hab => hab.imp le_of_lt le_of_lt
  · refine hpw.imp fun hab => ?_
    rintro ⟨hx, hy⟩
    have h5 : (0:ℚ) < minTimeBetweenClips := by norm_num [minTimeBetweenClips]
    rcases hab with h | h <;> linarith

/-- C3 counterexample: when the scene detector invocation errors,
detectScenes rethrows the wrapped error and analyzeVideo propagates it instead
of degrading to fallback scenes: at duration 120, maxClips 3 and detector
outcome error "boom", analyzeVideo returns an error, not a scene list. -/
theorem analyzeVideo_propagates_detector_error_cex :
    analyzeVideo 120 3 (Except.error "boom") =
      Except.error "Scene detection failed: boom" := rfl

/-- C3 amended: if the external scene detector invocation inside detectScenes
errors, detectScenes wraps and rethrows the error and analyzeVideo propagates
it (aborting the job); fallback scene generation happens only when detection
succeeds with fewer scenes than maxClips, in which case (as for any successful
detection) analyzeVideo still returns a scene list. -/
theorem analyzeVideo_error_and_fallback (duration : ℚ) (maxClips : ℕ)
    (msg : String) (scenes : List Scene) :
    analyzeVideo duration maxClips (Except.error msg) =
      Except.error ("Scene detection failed: " ++ msg) ∧
    analyzeVideo duration maxClips (Except.ok scenes) =
      Except.ok (selectBestScenes
        (scoreScenes
          (if scenes.length < maxClips then createFallbackScenes duration maxClips
           else scenes) duration) maxClips) := by
  exact ⟨rfl, rfl⟩

/-- C6: splitTitleIntoLines applied to "This Is A Very Long Title For A Short
Video" with a maximum of 18 characters per line yields at most 3 lines (here
exactly the three lines "This Is A Very", "Long Title For A", "Short Video"),
each line at most 18 characters (so within the bound even without the
single-unsplittable-word exception), and joining the returned lines with
single spaces reproduces the original title and hence its word sequence. -/
theorem splitTitleIntoLines_c6_spec :
    splitTitleIntoLines c6Title 18 =
      ["This Is A Very".toList, "Long Title For A".toList, "Short Video".toList] ∧
    (splitTitleIntoLines c6Title 18).length ≤ 3 ∧
    (splitTitleIntoLines c6Title 18).all (fun l => decide (l.length ≤ 18)) = true ∧
    joinLines (splitTitleIntoLines c6Title 18) = c6Title := by decide

/-- C1: dequeue returns a job only when the busy flag is idle, and then flips
the flag to busy, so a second dequeue in succession with no intervening
complete/fail (whatever the store holds by then) returns nothing; and
complete/fail always reset the flag to idle. -/
theorem dequeue_mutual_exclusion (busy : Bool) (st st2 : List Job) (j : Job)
    (b : Bool) (jobId : String) (h : (dequeue busy st).1 = some j) :
    busy = false ∧ (dequeue busy st).2 = true ∧
    (dequeue (dequeue busy st).2 st2).1 = none ∧
    queueComplete b jobId = false ∧ queueFail b jobId = false := by
  cases busy with
  | false =>
    cases hx : getNextQueuedJob st with
    | none => simp [dequeue, hx] at h
    | some j0 => exact ⟨rfl, by simp [dequeue, hx], by simp [dequeue, hx], rfl, rfl⟩
  | true => simp [dequeue] at h

/-- Concrete queued job for the C1 witness. -/
def jobC1 : Job :=
  { id := "job-1", videoUrl := "https://www.youtube.com/watch?v=abc123",
    status := JobStatus.queued,
    progress := { step := "downloading", percentage := 0, message := "Job queued" },
    result := none, error := none,
    options := { clipDuration := none, maxClips := 5, includeSubtitles := true },
    createdAt := 0, updatedAt := 0 }

theorem dequeue_mutual_exclusion_witness :
    (dequeue false [jobC1]).1 = some jobC1 ∧
    (false = false ∧ (dequeue false [jobC1]).2 = true ∧
      (dequeue (dequeue false [jobC1]).2 []).1 = none ∧
      queueComplete true "job-1" = false ∧ queueFail true "job-1" = false) :=
  ⟨by decide, dequeue_mutual_exclusion false [jobC1] [] jobC1 true "job-1" (by decide)⟩

/-- Looking up the updated id after an id-preserving update applies the
update to the looked-up row. -/
lemma getJob_updateWhere (st : List Job) (jobId : String) (f : Job → Job)
    (hf : ∀ x, (f x).id = x.id) :
    getJob (updateWhere st jobId f) jobId = (getJob st jobId).map f := by
  induction st with
  | nil => rfl
  | cons a rest ih =>
    simp only [updateWhere, List.map_cons, getJob] at ih ⊢
    by_cases ha : a.id = jobId
    · simp [ha, hf a]
    · simp [ha, ih]

/-- Looking up any other id after an id-preserving update is unchanged. -/
lemma getJob_updateWhere_ne (st : List Job) (jobId jobId2 : String) (f : Job → Job)
    (hf : ∀ x, (f x).id = x.id) (hne : jobId2 ≠ jobId) :
    getJob (updateWhere st jobId f) jobId2 = getJob st jobId2 := by
  induction st with
  | nil => rfl
  | cons a rest ih =>
    simp only [updateWhere, List.map_cons, getJob] at ih ⊢
    by_cases ha : a.id = jobId
    · have h2 : (f a).id ≠ jobId2 := by rw [hf a, ha]; exact fun hx => hne hx.symm
      have h3 : a.id ≠ jobId2 := by rw [ha]; exact fun hx => hne hx.symm
      have h4 : jobId ≠ jobId2 := fun hx => hne hx.symm
      simp [ha, h2, h3, h4, ih]
    · by_cases hc : a.id = jobId2
      · simp [ha, hc, hne]
      · simp [ha, hc, ih]

/-- C4: cancelJob returns true and flips the status to cancelled exactly when
the current status is neither completed nor failed; on a completed or failed
job it returns false and leaves the stored record unchanged. -/
theorem cancelJob_spec (st : List Job) (jobId : String) (now : ℕ) (j : Job)
    (h : getJob st jobId = some j) :
    ((j.status = JobStatus.completed ∨ j.status = JobStatus.failed) →
      cancelJob st jobId now = (st, false)) ∧
    (¬(j.status = JobStatus.completed ∨ j.status = JobStatus.failed) →
      (cancelJob st jobId now).2 = true ∧
      getJob (cancelJob st jobId now).1 jobId =
        some { j with status := JobStatus.cancelled, updatedAt := now }) := by
  constructor
  · intro hterm
    simp [cancelJob, h, hterm]
  · intro hterm
    constructor
    · simp [cancelJob, h, hterm]
    · have hmap := getJob_updateWhere st jobId
        (fun x => { x with status := JobStatus.cancelled, updatedAt := now }) (fun _ => rfl)
      simp [cancelJob, h, hterm, hmap]

/-- Concrete store for the C4 witness: one queued job. -/
def jobC4 : Job :=
  { id := "job-4", videoUrl := "https://youtu.be/xyz",
    status := JobStatus.queued,
    progress := { step := "downloading", percentage := 0, message := "Job queued" },
    result := none, error := none,
    options := { clipDuration := none, maxClips := 3, includeSubtitles := false },
    createdAt := 7, updatedAt := 7 }

theorem cancelJob_spec_witness :
    getJob [jobC4] "job-4" = some jobC4 ∧
    ¬(jobC4.status = JobStatus.completed ∨ jobC4.status = JobStatus.failed) ∧
    (cancelJob [jobC4] "job-4" 9).2 = true ∧
    getJob (cancelJob [jobC4] "job-4" 9).1 "job-4" =
      some { jobC4 with status := JobStatus.cancelled, updatedAt := 9 } :=
  ⟨by decide, by decide,
    ((cancelJob_spec [jobC4] "job-4" 9 jobC4 (by decide)).2 (by decide)).1,
    ((cancelJob_spec [jobC4] "job-4" 9 jobC4 (by decide)).2 (by decide)).2⟩

/-- The generateClips loop keeps exactly the successful render outcomes, in
order: a failed scene is omitted and every remaining scene is still rendered. -/
lemma generateClips_eq_filterMap (outs : List (Except String GeneratedClip)) :
    generateClips outs = outs.filterMap fun o => o.toOption := by
  induction outs with
  | nil => rfl
  | cons o rest ih =>
    cases o with
    | ok c => simp [generateClips, List.filterMap_cons, Except.toOption, ih]
    | error e => simp [generateClips, List.filterMap_cons, Except.toOption, ih]

/-- C7: a failure while rendering one scene is confined to its own loop
iteration — generateClips returns exactly the successes, in order, with the
failed scenes omitted — and the worker then completes the job with whatever
list survived, so a run where zero clips survive still ends with status
completed and an (empty) clip list in the result. -/
theorem generateClips_failure_isolation (outs : List (Except String GeneratedClip))
    (st : List Job) (jobId : String) (j : Job) (videoTitle : String) (duration : ℚ)
    (now : ℕ) (h : getJob st jobId = some j) :
    generateClips outs = (outs.filterMap fun o => o.toOption) ∧
    getJob (completeJob st jobId
        (workerBuildResult jobId videoTitle duration (generateClips outs)) now) jobId =
      some { j with status := JobStatus.completed,
                    result := some (workerBuildResult jobId videoTitle duration
                      (generateClips outs)),
                    progress := doneProgress, updatedAt := now } := by
  refine ⟨generateClips_eq_filterMap outs, ?_⟩
  have hmap := getJob_updateWhere st jobId
    (fun x => { x with status := JobStatus.completed,
                       result := some (workerBuildResult jobId videoTitle duration
                         (generateClips outs)),
                       progress := doneProgress, updatedAt := now }) (fun _ => rfl)
  rw [completeJob, hmap, h]
  rfl

/-- Concrete store for the C7 witness: one processing job; both renders fail. -/
def jobC7 : Job :=
  { id := "job-7", videoUrl := "https://youtu.be/qqq",
    status := JobStatus.processing,
    progress := { step := "generating", percentage := 60, message := "Generating clips..." },
    result := none, error := none,
    options := { clipDuration := none, maxClips := 5, includeSubtitles := true },
    createdAt := 1, updatedAt := 2 }

theorem generateClips_failure_isolation_witness :
    getJob [jobC7] "job-7" = some jobC7 ∧
    generateClips [Except.error "render failed 1", Except.error "render failed 2"] =
      ([Except.error "render failed 1",
        Except.error "render failed 2"].filterMap fun o => o.toOption) ∧
    getJob (completeJob [jobC7] "job-7"
        (workerBuildResult "job-7" "source video" 300
          (generateClips [Except.error "render failed 1", Except.error "render failed 2"])) 3)
        "job-7" =
      some { jobC7 with status := JobStatus.completed,
                        result := some (workerBuildResult "job-7" "source video" 300
                          (generateClips [Except.error "render failed 1",
                            Except.error "render failed 2"])),
                        progress := doneProgress, updatedAt := 3 } :=
  ⟨by decide,
    (generateClips_failure_isolation
      [Except.error "render failed 1", Except.error "render failed 2"]
      [jobC7] "job-7" jobC7 "source video" 300 3 (by decide)).1,
    (generateClips_failure_isolation
      [Except.error "render failed 1", Except.error "render failed 2"]
      [jobC7] "job-7" jobC7 "source video" 300 3 (by decide)).2⟩

/-- An empty lookup means no row carries the id. -/
lemma getJob_none_forall (st : List Job) (jobId : String) (h : getJob st jobId = none) :
    ∀ j ∈ st, j.id ≠ jobId := by
  induction st with
  | nil => intro j hj; exact absurd hj (List.not_mem_nil j)
  | cons a rest ih =>
    intro j hj
    simp only [getJob] at h
    by_cases ha : a.id = jobId
    · rw [if_pos ha] at h; exact absurd h (by simp)
    · rw [if_neg ha] at h
      rcases List.mem_cons.mp hj with rfl | hj2
      · exact ha
      · exact ih h j hj2

/-- With unique primary keys, lookup of a member id returns that member. -/
lemma getJob_of_mem {st : List Job} {j : Job} {jobId : String}
    (hu : UniqueIds st) (hj : j ∈ st) (hid : j.id = jobId) :
    getJob st jobId = some j := by
  induction st with
  | nil => exact absurd hj (List.not_mem_nil j)
  | cons a rest ih =>
    rcases List.mem_cons.mp hj with rfl | hj2
    · simp [getJob, hid]
    · have hane : a.id ≠ j.id := (List.pairwise_cons.mp hu).1 j hj2
      have hana : a.id ≠ jobId := fun hx => hane (hx.trans hid.symm)
      simp only [getJob, if_neg hana]
      exact ih (List.pairwise_cons.mp hu).2 hj2

/-- Id-preserving bulk updates keep primary keys unique. -/
lemma uniqueIds_updateWhere (st : List Job) (jobId : String) (f : Job → Job)
    (hf : ∀ x, (f x).id = x.id) (hu : UniqueIds st) :
    UniqueIds (updateWhere st jobId f) := by
  have gid : ∀ x : Job, (if x.id = jobId then f x else x).id = x.id := by
    intro x
    by_cases hx : x.id = jobId
    · rw [if_pos hx]; exact hf x
    · rw [if_neg hx]
  unfold UniqueIds updateWhere
  rw [List.pairwise_map]
  refine hu.imp ?_
  intro a b hab
  rw [gid a, gid b]
  exact hab

/-- Reachable stores have unique ids and satisfy the per-job status
invariant: results only on completed jobs, errors only on failed ones. -/
lemma reachable_inv {st : List Job} (h : Reachable st) :
    UniqueIds st ∧ ∀ j ∈ st, StatusInv j := by
  induction h with
  | init => exact ⟨List.Pairwise.nil, fun j hj => absurd hj (List.not_mem_nil j)⟩
  | create st jobId videoUrl maxClips clipDuration includeSubtitles now h hfresh ih =>
    obtain ⟨hu, hinv⟩ := ih
    constructor
    · refine List.pairwise_append.mpr ⟨hu, List.pairwise_singleton _ _, ?_⟩
      intro a ha b hb
      rw [List.mem_singleton] at hb
      subst hb
      exact getJob_none_forall st jobId hfresh a ha
    · intro j hj
      rcases List.mem_append.mp hj with hj1 | hj2
      · exact hinv j hj1
      · rw [List.mem_singleton] at hj2
        subst hj2
        exact ⟨fun hx => absurd hx (by simp), fun hx => absurd hx (by simp)⟩
  | progress st jobId p now h ih =>
    obtain ⟨hu, hinv⟩ := ih
    refine ⟨uniqueIds_updateWhere st jobId _ (fun _ => rfl) hu, ?_⟩
    intro j hj
    rcases List.mem_map.mp hj with ⟨x, hx, rfl⟩
    by_cases hid : x.id = jobId
    · rw [if_pos hid]; exact hinv x hx
    · rw [if_neg hid]; exact hinv x hx
  | setProcessing st jobId p now h hrun ih =>
    obtain ⟨hu, hinv⟩ := ih
    refine ⟨uniqueIds_updateWhere st jobId _ (fun _ => rfl) hu, ?_⟩
    intro j hj
    rcases List.mem_map.mp hj with ⟨x, hx, rfl⟩
    by_cases hid : x.id = jobId
    · rw [if_pos hid]
      have hg : getJob st jobId = some x := getJob_of_mem hu hx hid
      unfold notTerminal at hrun
      rw [hg] at hrun
      simp only [Bool.not_eq_eq_eq_not, Bool.not_true, Bool.or_eq_false_iff,
        decide_eq_false_iff_not] at hrun
      rcases hinv x hx with ⟨h1, h2⟩
      exact ⟨fun hres => absurd (h1 hres) hrun.1, fun herr => absurd (h2 herr) hrun.2⟩
    · rw [if_neg hid]; exact hinv x hx
  | complete st jobId res now h hrun ih =>
    obtain ⟨hu, hinv⟩ := ih
    refine ⟨uniqueIds_updateWhere st jobId _ (fun _ => rfl) hu, ?_⟩
    intro j hj
    rcases List.mem_map.mp hj with ⟨x, hx, rfl⟩
    by_cases hid : x.id = jobId
    · rw [if_pos hid]
      have hg : getJob st jobId = some x := getJob_of_mem hu hx hid
      unfold notTerminal at hrun
      rw [hg] at hrun
      simp only [Bool.not_eq_eq_eq_not, Bool.not_true, Bool.or_eq_false_iff,
        decide_eq_false_iff_not] at hrun
      rcases hinv x hx with ⟨_, h2⟩
      exact ⟨fun _ => rfl, fun herr => absurd (h2 herr) hrun.2⟩
    · rw [if_neg hid]; exact hinv x hx
  | fail st jobId err now h hrun ih =>
    obtain ⟨hu, hinv⟩ := ih
    refine ⟨uniqueIds_updateWhere st jobId _ (fun _ => rfl) hu, ?_⟩
    intro j hj
    rcases List.mem_map.mp hj with ⟨x, hx, rfl⟩
    by_cases hid : x.id = jobId
    · rw [if_pos hid]
      have hg : getJob st jobId = some x := getJob_of_mem hu hx hid
      unfold notTerminal at hrun
      rw [hg] at hrun
      simp only [Bool.not_eq_eq_eq_not, Bool.not_true, Bool.or_eq_false_iff,
        decide_eq_false_iff_not] at hrun
      rcases hinv x hx with ⟨h1, _⟩
      exact ⟨fun hres => absurd (h1 hres) hrun.1, fun _ => rfl⟩
    · rw [if_neg hid]; exact hinv x hx
  | cancel st jobId now h ih =>
    obtain ⟨hu, hinv⟩ := ih
    cases hg : getJob st jobId with
    | none => simp only [cancelJob, hg]; exact ⟨hu, hinv⟩
    | some j0 =>
      by_cases hterm : j0.status = JobStatus.completed ∨ j0.status = JobStatus.failed
      · simp only [cancelJob, hg, if_pos hterm]; exact ⟨hu, hinv⟩
      · simp only [cancelJob, hg, if_neg hterm]
        refine ⟨uniqueIds_updateWhere st jobId _ (fun _ => rfl) hu, ?_⟩
        intro j hj
        rcases List.mem_map.mp hj with ⟨x, hx, rfl⟩
        by_cases hid : x.id = jobId
        · rw [if_pos hid]
          have hgx : getJob st jobId = some x := getJob_of_mem hu hx hid
          rw [hg] at hgx
          have hx0 : j0 = x := by injection hgx
          rw [hx0] at hterm
          rcases hinv x hx with ⟨h1, h2⟩
          exact ⟨fun hres => absurd (Or.inl (h1 hres)) hterm,
                 fun herr => absurd (Or.inr (h2 herr)) hterm⟩
        · rw [if_neg hid]; exact hinv x hx

/-- C8: in every job-store state the orchestrator can produce, no job ever
carries a result and an error at the same time (and each is an optional
single value, so there is at most one of each). -/
theorem job_result_error_never_both (st : List Job) (h : Reachable st)
    (j : Job) (hj : j ∈ st) :
    (j.result.isSome && j.error.isSome) = false := by
  rcases (reachable_inv h).2 j hj with ⟨h1, h2⟩
  cases hres : j.result.isSome with
  | false => rfl
  | true =>
    cases herr : j.error.isSome with
    | false => rfl
    | true =>
      have hc := h1 hres
      have hf := h2 herr
      rw [hc] at hf
      exact absurd hf (by simp)

/-- Concrete result for the C8 witness. -/
def resC8 : JobResult := { videoTitle := "video", duration := 100, clips := [] }

/-- C8 witness store, first step: one freshly created job. -/
def stC8a : List Job := createJob [] "job-8" "https://youtu.be/abc" none none none 0

/-- C8 witness store, second step: that job completed. -/
def stC8 : List Job := completeJob stC8a "job-8" resC8 1

/-- The completed job as stored in stC8. -/
def jobC8 : Job :=
  { id := "job-8", videoUrl := "https://youtu.be/abc", status := JobStatus.completed,
    progress := doneProgress, result := some resC8, error := none,
    options := { clipDuration := none, maxClips := 5, includeSubtitles := true },
    createdAt := 0, updatedAt := 1 }

theorem job_result_error_never_both_witness :
    jobC8 ∈ stC8 ∧ (jobC8.result.isSome && jobC8.error.isSome) = false :=
  ⟨by decide,
    job_result_error_never_both stC8
      (Reachable.complete stC8a "job-8" resC8 1
        (Reachable.create [] "job-8" "https://youtu.be/abc" none none none 0
          Reachable.init rfl)
        (by decide))
      jobC8 (by decide)⟩

/-- Replacement applied to each clip of the addressed job by updateClipTitle. -/
def retitleClip (clipId newTitle : String) (c : ClipInfo) : ClipInfo :=
  if c.id = clipId then { c with title := some newTitle } else c

/-- C9: updateClipTitle rewrites the addressed job so that, inside its
persisted result, exactly the clip with the given id gets the new title:
the job record changes only in result.clips titles and updatedAt, the clip
ids and their order are unchanged, a clip with a different id is untouched,
the matching clip changes only its title field, and every other job of the
store is untouched, so a subsequent getJob reflects exactly that change. -/
theorem updateClipTitle_spec (st : List Job) (jobId clipId newTitle : String) (now : ℕ)
    (j : Job) (r : JobResult) (h : getJob st jobId = some j) (hr : j.result = some r) :
    getJob (updateClipTitle st jobId clipId newTitle now) jobId =
      some { j with
        result := some { r with clips := r.clips.map (retitleClip clipId newTitle) },
        updatedAt := now } ∧
    (r.clips.map (retitleClip clipId newTitle)).map (fun c => c.id) =
      r.clips.map (fun c => c.id) ∧
    (∀ i : ℕ, ∀ c : ClipInfo, r.clips[i]? = some c → c.id ≠ clipId →
      (r.clips.map (retitleClip clipId newTitle))[i]? = some c) ∧
    (∀ i : ℕ, ∀ c : ClipInfo, r.clips[i]? = some c → c.id = clipId →
      (r.clips.map (retitleClip clipId newTitle))[i]? =
        some { c with title := some newTitle }) ∧
    (∀ jobId2 : String, jobId2 ≠ jobId →
      getJob (updateClipTitle st jobId clipId newTitle now) jobId2 = getJob st jobId2) := by
  refine ⟨?_, ?_, ?_, ?_, ?_⟩
  · have hmap := getJob_updateWhere st jobId
      (fun x => { x with
        result := x.result.map fun res =>
          { res with clips := res.clips.map fun c =>
              if c.id = clipId then { c with title := some newTitle } else c },
        updatedAt := now }) (fun _ => rfl)
    rw [updateClipTitle, hmap, h]
    rw [Option.map_some']
    rw [hr]
    rfl
  · induction r.clips with
    | nil => rfl
    | cons a rest ih =>
      by_cases hc : a.id = clipId <;> simp [retitleClip, hc, ih]
  · intro i c hi hne
    rw [List.getElem?_map, hi]
    simp [retitleClip, hne]
  · intro i c hi heq
    rw [List.getElem?_map, hi]
    simp [retitleClip, heq]
  · intro jobId2 hne
    exact getJob_updateWhere_ne st jobId jobId2 _ (fun _ => rfl) hne

/-- First clip of the C9 witness job. -/
def clipC9a : ClipInfo :=
  { id := "clip-1", startTime := 0, endTime := 30, duration := 30, score := 1,
    thumbnailUrl := "/outputs/job-9/thumbnails/clip-1.jpg",
    videoUrl := "/outputs/job-9/clips/clip-1.mp4", title := some "Old Title" }

/-- Second clip of the C9 witness job. -/
def clipC9b : ClipInfo :=
  { id := "clip-2", startTime := 60, endTime := 90, duration := 30, score := 0,
    thumbnailUrl := "/outputs/job-9/thumbnails/clip-2.jpg",
    videoUrl := "/outputs/job-9/clips/clip-2.mp4", title := none }

/-- Result of the C9 witness job. -/
def resC9 : JobResult := { videoTitle := "source", duration := 120, clips := [clipC9a, clipC9b] }

/-- The completed C9 witness job. -/
def jobC9 : Job :=
  { id := "job-9", videoUrl := "https://youtu.be/nnn", status := JobStatus.completed,
    progress := doneProgress, result := some resC9, error := none,
    options := { clipDuration := none, maxClips := 5, includeSubtitles := true },
    createdAt := 0, updatedAt := 1 }

theorem updateClipTitle_spec_witness :
    getJob [jobC9] "job-9" = some jobC9 ∧ jobC9.result = some resC9 ∧
    getJob (updateClipTitle [jobC9] "job-9" "clip-1" "New Title" 5) "job-9" =
      some { jobC9 with
        result := some { resC9 with clips := resC9.clips.map (retitleClip "clip-1" "New Title") },
        updatedAt := 5 } :=
  ⟨by decide, by decide,
    (updateClipTitle_spec [jobC9] "job-9" "clip-1" "New Title" 5 jobC9 resC9
      (by decide) (by decide)).1⟩

end Cliphunter
